import Mathlib

/-!
Verification of the successor-feature TD/Dyna loss core of the `neurorl`
repository against its natural-language specification.

The development shallowly embeds the loss code of
`projects/human_sf/usfa_dyna_offtask.py` and the mask/mean helpers of
`td_agents/sf_agents.py`.  Tensors are nested lists of rationals
(`Vec`, `Mat`, `T3`, `T4`); the time axis is the outermost list level, matching
the `[T, B, ...]` layout of the source.  External collaborators (the JAX/rlax
tensor substrate, pseudo-random keys, the successor-feature network and the
learned model) are modelled as explicit Lean functions: networks are passed in
as a record of function fields, mirroring how the source receives an
`MbrlSfNetworks` handle, and the random primitives are deterministic functions
of an abstract key, which is all the code under verification relies on.

Where an array in the source changes rank dynamically (the loss accumulator of
`MtrlDynaUsfaLossFn.error` is a `[B]` vector until the on-task term broadcasts
it to a `[T-1, B]` matrix), a small sum type (`LossAcc`) records the rank and
implements the numpy broadcasting rule at exactly the ranks that occur.
-/

/-- Rank-1 tensor: a vector of rationals (one axis). -/
abbrev Vec := List ℚ

/-- Rank-2 tensor, outer axis first. -/
abbrev Mat := List Vec

/-- Rank-3 tensor. -/
abbrev T3 := List Mat

/-- Rank-4 tensor. -/
abbrev T4 := List T3

/-- Abstract pseudo-random key.  JAX keys are opaque `uint32` pairs; every use
in the source treats them as opaque tokens passed to `jax.random` primitives,
so a natural number models them adequately. -/
abbrev Key := ℕ

/-- Opaque network parameters (the source never inspects them, it only passes
them to the network handle). -/
abbrev Params := ℕ

/-- Mean of a vector, `jnp.mean` over one axis (division by zero only occurs
for empty axes, which the source never produces on the paths we verify). -/
def vmean (v : Vec) : ℚ := v.sum / v.length

/-- Population variance of a vector, `jnp.var` over one axis. -/
def vvar (v : Vec) : ℚ := vmean (v.map (fun x => (x - vmean v) ^ 2))

/-- Elementwise sum of two vectors (`jnp.add` on same-shape arrays). -/
def vadd (a b : Vec) : Vec := List.zipWith (· + ·) a b

/-- Scalar times vector. -/
def vscale (c : ℚ) (v : Vec) : Vec := v.map (fun x => c * x)

/-- Elementwise product of two vectors. -/
def vmul (a b : Vec) : Vec := List.zipWith (· * ·) a b

/-- Elementwise sum of two matrices. -/
def madd (a b : Mat) : Mat := List.zipWith vadd a b

/-- Scalar times matrix. -/
def mscale (c : ℚ) (m : Mat) : Mat := m.map (vscale c)

/-- Elementwise product of two matrices. -/
def mmul (a b : Mat) : Mat := List.zipWith vmul a b

/-- The all-zero `[t, b]` matrix, `jnp.zeros((t, b))`. -/
def mzero (t b : ℕ) : Mat := List.replicate t (List.replicate b 0)

/-- Column sums of a matrix (`x.sum(0)`); the width is the static width of the
first row, as fixed by the rectangular array shapes of the substrate. -/
def colSums (m : Mat) : Vec :=
  (List.range (m.headD []).length).map (fun j => (m.map (fun r => r.getD j 0)).sum)

/-- Sum of every entry of a matrix. -/
def msum (m : Mat) : ℚ := (m.map List.sum).sum

/-- Number of entries of a matrix. -/
def mcount (m : Mat) : ℕ := (m.map List.length).sum

/-- Global mean of a matrix, `x.mean()` with no axis. -/
def mmean (m : Mat) : ℚ := msum m / mcount m

/-- Sum of every entry of a rank-3 tensor. -/
def t3sum (x : T3) : ℚ := (x.map msum).sum

/-- Number of entries of a rank-3 tensor. -/
def t3count (x : T3) : ℕ := (x.map mcount).sum

/-- Global mean of a rank-3 tensor, `x.mean()` with no axis. -/
def t3mean (x : T3) : ℚ := t3sum x / t3count x

/-- Index of the first maximal entry of a vector (`jnp.argmax` along the last
axis; `jnp.argmax` returns the first occurrence of the maximum). -/
def argmax (v : Vec) : ℕ :=
  (List.range v.length).foldl (fun best i => if v.getD best 0 < v.getD i 0 then i else best) 0

/-- Select `q[t][a[t]]` for every `t`: `rlax.batched_index` on a `[T, A]`
array with a `[T]` index vector. -/
def batched_index (q : Mat) (a : List ℕ) : Vec :=
  List.zipWith (fun row i => row.getD i 0) q a

/-- Select the row `q[t][a[t]]` of a `[T, A, C]` tensor for every `t` (the
`jax.vmap`-over-cumulants form of `rlax.batched_index` used by the source). -/
def batched_index_rows (q : T3) (a : List ℕ) : Mat :=
  List.zipWith (fun m i => m.getD i []) q a

/-- Stack a list of `C` column vectors into a `[n, C]` matrix, where `n` is
the static length of the time axis (the `out_axes=1` stacking performed by
`jax.vmap` over the cumulant dimension; jax knows the static time length from
the input shapes, so we take it as an argument). -/
def stackColsN (n : ℕ) (cols : List Vec) : Mat :=
  (List.range n).map (fun t => cols.map (fun c => c.getD t 0))

/-- Slice index `c` out of axis 2 of a `[T, A, C]` tensor, giving `[T, A]`. -/
def sliceC (x : T3) (c : ℕ) : Mat :=
  x.map (fun m => m.map (fun row => row.getD c 0))

/-- Column `c` of a matrix (slice of axis 1). -/
def colOf (m : Mat) (c : ℕ) : Vec := m.map (fun r => r.getD c 0)

/-!  Pseudo-random primitives.  These belong to the external tensor substrate
(`jax.random`), which the spec explicitly leaves out of scope; they are
modelled as deterministic functions of the key.  The properties the loss code
relies on — determinism given the key, and `choice(..., replace=False)`
returning pairwise-distinct in-range indices — hold of the models. -/

/-- Modelled from the spec: `jax.random.split(key, num)` of the external
substrate — deterministically derives `num` fresh keys from `key`. -/
def jax_random_split (key : Key) (num : ℕ) : List Key :=
  (List.range num).map (fun i => 2654435761 * key + 1000003 * i + 1)

/-- Modelled from the spec: two-way `jax.random.split(key)`. -/
def jax_random_split2 (key : Key) : Key × Key :=
  ((jax_random_split key 2).getD 0 0, (jax_random_split key 2).getD 1 0)

/-- Modelled from the spec: `jax.random.choice(key, n, shape=(k,),
replace=False)` of the external substrate — `k` pairwise-distinct indices
below `n`, chosen deterministically from the key. -/
def jax_random_choice_noreplace (key : Key) (n k : ℕ) : List ℕ :=
  ((List.range n).rotate key).take k

/-- Source `split_key` (usfa_dyna_offtask.py:327-331): split into `N+1` keys,
return the first as the carried key and the rest as the key set. -/
def split_key (key : Key) (N : ℕ) : Key × List Key :=
  let keys := jax_random_split key (N + 1)
  (keys.headD 0, keys.tail)

/-!  Data model (spec §3).  `data.observation.observation` of the source is an
OAR-wrapper nesting; the inner observation record is flattened into one
structure here. -/

/-- Inner observation fields of a trajectory batch; all leading axes `[T, B]`. -/
structure ObservationData where
  task : T3
  state_features : T3
  train_tasks : T4
  action_mask : Option T3
deriving Repr, DecidableEq

/-- Trajectory batch (spec §3): `T` steps across `B` episodes. -/
structure TrajData where
  observation : ObservationData
  action : List (List ℕ)
  reward : Mat
  discount : Mat
deriving Repr, DecidableEq

/-- Source `Predictions` NamedTuple (usfa_dyna_offtask.py:117-123) at the
per-element rank used by `compute_sfs` and `mask_predictions`:
`q_values : [A]`, `sf : [A, C]`. -/
structure Predictions where
  state : Vec
  q_values : Vec
  sf : Mat
  policy : Vec
  task : Vec
  action_mask : Option Vec
deriving Repr, DecidableEq

instance : Inhabited Predictions := ⟨⟨[], [], [], [], [], none⟩⟩

/-- Source `Predictions` at the batched rank produced by unrolling networks
over a trajectory: every field carries leading `[T, B]` axes. -/
structure PredictionsTB where
  state : T3
  q_values : T3
  sf : T4
  policy : T3
  task : T3
  action_mask : Option T3
deriving Repr, DecidableEq

/-- Element of a batched `Predictions` at time `t`, batch entry `b` (the
slicing performed by `jax.vmap` over the two leading axes). -/
def elemPreds (p : PredictionsTB) (t b : ℕ) : Predictions :=
  ⟨(p.state.getD t []).getD b [],
   (p.q_values.getD t []).getD b [],
   (p.sf.getD t []).getD b [],
   (p.policy.getD t []).getD b [],
   (p.task.getD t []).getD b [],
   p.action_mask.map (fun am => (am.getD t []).getD b [])⟩

/-- Source `ModelOuputs` dataclass (usfa_dyna_offtask.py:126-132).  The
optional fields are `None` unless the network provides them. -/
structure ModelOuputs where
  state : Vec
  state_features : Vec
  state_feature_logits : Vec
  action_mask : Option Vec
  action_mask_logits : Option Vec
deriving Repr, DecidableEq

/-- Source `MbrlSfNetworks` handle (usfa_dyna_offtask.py:106-114), restricted
to the two members the loss code calls: `compute_sfs(params, key, state, task)`
and `apply_model(params, key, state, action)`.  The networks themselves are an
external collaborator (spec §1 non-goals), so they are opaque function
fields. -/
structure MbrlSfNetworks where
  compute_sfs : Params → Key → Vec → Vec → Predictions
  apply_model : Params → Key → Vec → ℕ → ModelOuputs × Vec

/-- Source `make_episode_mask` (sf_agents.py:41-59): on a `[T, B]` discount,
the include-final mask is `concat(ones(2,B), discount[:-2])` and the
exclude-final mask is `concat(ones(1,B), discount[:-1])`.  A python slice
`x[:-k]` (`k ≥ 1`) is `take (length - k)`. -/
def make_episode_mask (data : TrajData) (include_final : Bool) : Mat :=
  let B := (data.discount.headD []).length
  if include_final then
    List.replicate 2 (List.replicate B 1) ++
      data.discount.take (data.discount.length - 2)
  else
    List.replicate 1 (List.replicate B 1) ++
      data.discount.take (data.discount.length - 1)

/-- Source `episode_mean` (sf_agents.py:61-70) at the rank-1 instance
(`x` and `mask` of equal rank, the branch taken by every call this
development reaches): masked sum over axis 0 divided by
`mask.sum(0) + 1e-5`. -/
def episode_mean (x mask : Vec) : ℚ :=
  (vmul x mask).sum / (mask.sum + 1 / 100000)

/-- Source `episode_mean` at the rank-2 instance (`x` and `mask` both
`[T, B]`, equal rank): columnwise masked mean over the time axis. -/
def episode_meanM (x mask : Mat) : Vec :=
  List.zipWith (fun a b => a / (b + 1 / 100000)) (colSums (mmul x mask)) (colSums mask)

/-- Source `LARGE_NEGATIVE = -1e7` (usfa_dyna_offtask.py:52). -/
def LARGE_NEGATIVE : ℚ := -10000000

/-- Source `mask_predictions` (usfa_dyna_offtask.py:333-349): q-values are
pushed to `LARGE_NEGATIVE` where the mask is zero, successor-feature rows are
zeroed there (the source maps the zero-masking over the cumulant axis with
`jax.vmap(·, 1, 1)`, which on the rectangular `[A, C]` array equals zeroing
whole action rows), and the mask is recorded; all other fields pass through
`_replace` unchanged. -/
def mask_predictions (predictions : Predictions) (action_mask : Vec) : Predictions :=
  let q_values := List.zipWith
    (fun m x => if m ≠ 0 then x else LARGE_NEGATIVE) action_mask predictions.q_values
  let sf := List.zipWith
    (fun m row => if m ≠ 0 then row else row.map (fun _ => (0 : ℚ)))
    action_mask predictions.sf
  { predictions with q_values := q_values, sf := sf, action_mask := some action_mask }

/-- Source `batch_mask_predictions = jax.vmap(mask_predictions)`
(usfa_dyna_offtask.py:351). -/
def batch_mask_predictions (preds : List Predictions) (masks : List Vec) : List Predictions :=
  List.zipWith mask_predictions preds masks

/-- Source `TaskWeightedSFLossFn` dataclass (usfa_dyna_offtask.py:427-433).
The string fields are dispatched per call; an unknown value raises
`NotImplementedError`, modelled as `none`. -/
structure TaskWeightedSFLossFn where
  weight_type : String
  combination : String
  sum_cumulants : Bool
deriving Repr, DecidableEq

/-- The default instance `TaskWeightedSFLossFn()` used by the on-task, Dyna
and model losses: `weight_type='reg'`, `combination='loss'`,
`sum_cumulants=True`. -/
def TaskWeightedSFLossFn.default : TaskWeightedSFLossFn := ⟨"reg", "loss", true⟩

/-- Source `TaskWeightedSFLossFn.__call__` (usfa_dyna_offtask.py:436-488) at
the rank-1 instance (`td_error : [C]`, `task_w : [C]`): derive per-cumulant
weights from the task, combine into a task-weighted scalar loss, and compute
the unweighted loss from the summed (or averaged) TD error. -/
def TaskWeightedSFLossFn.call (self : TaskWeightedSFLossFn) (td_error task_w : Vec) :
    Option (ℚ × ℚ) :=
  let weights : Option Vec :=
    if self.weight_type = "mag" then some (task_w.map (fun w => |w|))
    else if self.weight_type = "reg" then some task_w
    else if self.weight_type = "indicator" then
      some (task_w.map (fun w => if |w| < 1 / 100000 then 1 else 0))
    else none
  weights.bind (fun td_weights =>
    let loss_fn : ℚ → ℚ := fun x => 1 / 2 * x ^ 2
    let task_weighted_td_error := (vmul td_error td_weights).sum
    let tw : Option ℚ :=
      if self.combination = "td" then some (loss_fn task_weighted_td_error)
      else if self.combination = "loss" then
        some ((vmul (td_error.map loss_fn) td_weights).sum)
      else none
    tw.map (fun task_weighted_loss =>
      let unweighted_td_error :=
        if self.sum_cumulants then td_error.sum else vmean td_error
      (task_weighted_loss, loss_fn unweighted_td_error)))

/-- Source `TaskWeightedSFLossFn.__call__` at the rank-2 instance used by the
Dyna loss (`td_error : [K, C]` broadcast against `task_w : [C]`): the same
computation with the trailing cumulant axis reduced per row. -/
def TaskWeightedSFLossFn.callMat (self : TaskWeightedSFLossFn) (td_error : Mat)
    (task_w : Vec) : Option (Vec × Vec) :=
  let weights : Option Vec :=
    if self.weight_type = "mag" then some (task_w.map (fun w => |w|))
    else if self.weight_type = "reg" then some task_w
    else if self.weight_type = "indicator" then
      some (task_w.map (fun w => if |w| < 1 / 100000 then 1 else 0))
    else none
  weights.bind (fun td_weights =>
    let loss_fn : ℚ → ℚ := fun x => 1 / 2 * x ^ 2
    let task_weighted_td_error := td_error.map (fun row => (vmul row td_weights).sum)
    let tw : Option Vec :=
      if self.combination = "td" then some (task_weighted_td_error.map loss_fn)
      else if self.combination = "loss" then
        some (td_error.map (fun row => (vmul (row.map loss_fn) td_weights).sum))
      else none
    tw.map (fun task_weighted_loss =>
      let unweighted_td_error :=
        td_error.map (fun row => if self.sum_cumulants then row.sum else vmean row)
      (task_weighted_loss, unweighted_td_error.map loss_fn)))

/-!  Models of the external `rlax` loss primitives used by the source.  These
functions are part of the tensor substrate (spec §2 component 1, not
reimplemented by the repository); they are translated here from their
documented semantics so that the repository's loss code can be embedded
end to end. -/

/-- Modelled from the spec: `rlax.double_q_learning(q_tm1, a_tm1, r_t,
discount_t, q_t_value, q_t_selector)` — the double-Q TD error
`r + γ * q_t_value[argmax q_t_selector] - q_tm1[a_tm1]`. -/
def double_q_learning (q_tm1 : Vec) (a_tm1 : ℕ) (r_t discount_t : ℚ)
    (q_t_value q_t_selector : Vec) : ℚ :=
  r_t + discount_t * q_t_value.getD (argmax q_t_selector) 0 - q_tm1.getD a_tm1 0

/-- Modelled from the spec: `rlax.n_step_bootstrapped_returns(r_t, discount_t,
v_t, n)` — n-step bootstrapped return targets, computed by padding the
sequences with `n-1` trailing entries and folding the one-step backup
backwards `n` times (λ is 1 throughout, as in the identity-transform n-step
q-learning the source configures). -/
def n_step_bootstrapped_returns (r_t discount_t v_t : Vec) (n : ℕ) : Vec :=
  let seq_len := r_t.length
  let last_v := v_t.getLastD 0
  let pad_size := min (n - 1) seq_len
  let targets0 := v_t.drop (n - 1) ++ List.replicate pad_size last_v
  let r_pad := r_t ++ List.replicate (n - 1) 0
  let discount_pad := discount_t ++ List.replicate (n - 1) 1
  (List.range n).reverse.foldl
    (fun targets i =>
      let r_ := (r_pad.drop i).take seq_len
      let discount_ := (discount_pad.drop i).take seq_len
      vadd r_ (vmul discount_ targets))
    targets0

/-- Modelled from the spec: `rlax.transformed_n_step_q_learning(q_tm1, a_tm1,
target_q_t, a_t, r_t, discount_t, n)` with the identity transform pair —
n-step double-Q TD errors: bootstrapped targets built from
`target_q_t[a_t]`, minus `q_tm1[a_tm1]`. -/
def transformed_n_step_q_learning (q_tm1 : Mat) (a_tm1 : List ℕ) (target_q_t : Mat)
    (a_t : List ℕ) (r_t discount_t : Vec) (n : ℕ) : Vec :=
  let v_t := batched_index target_q_t a_t
  let target_tm1 := n_step_bootstrapped_returns r_t discount_t v_t n
  let q_a_tm1 := batched_index q_tm1 a_tm1
  List.zipWith (· - ·) target_tm1 q_a_tm1

/-- Modelled from the spec: `rlax.lambda_returns(r_t, discount_t, v_t,
lambda_)` — λ-mixed bootstrapped return targets
`G_t = r_t + γ_t * ((1-λ_t) * v_t + λ_t * G_{t+1})`, bootstrapping the final
step from its own value estimate. -/
def lambda_returns : Vec → Vec → Vec → Vec → Vec
  | r0 :: rs, g0 :: gs, v0 :: vs, l0 :: ls =>
    let rest := lambda_returns rs gs vs ls
    (r0 + g0 * ((1 - l0) * v0 + l0 * rest.headD v0)) :: rest
  | _, _, _, _ => []

/-- Modelled from the spec: `q_learning_lambda` of `projects/human_sf/
usfa_offtask.py` (imported by the file under verification but not part of the
provided sources) — the spec §4.1 λ-return mode: a λ-weighted mixture of
n-step returns bootstrapped at the selector action, minus the online value at
the taken action. -/
def q_learning_lambda (q_tm1 : Mat) (a_tm1 : List ℕ) (r_t discount_t : Vec)
    (q_t : Mat) (a_t : List ℕ) (lambda_ : Vec) : Vec :=
  let v_t := batched_index q_t a_t
  let target_tm1 := lambda_returns r_t discount_t v_t lambda_
  List.zipWith (· - ·) target_tm1 (batched_index q_tm1 a_tm1)

/-- Source `one_step_sf_td` (usfa_dyna_offtask.py:356-376): double SF-learning
over a set of successor features — `rlax.double_q_learning` vmapped over the
cumulant dimension of `sf : [A, C]` and `next_sf : [A, C]`. -/
def one_step_sf_td (sf : Mat) (action : ℕ) (next_state_features : Vec)
    (next_sf : Mat) (discounts : ℚ) (q_values : Vec) : Vec :=
  (List.range (sf.headD []).length).map (fun c =>
    double_q_learning (colOf sf c) action (next_state_features.getD c 0) discounts
      (colOf next_sf c) q_values)

/-- Source `SFTDError.__call__` (usfa_dyna_offtask.py:378-424): dispatch on
`loss_fn`, vmapping the chosen per-cumulant TD error over the cumulant axis
(`out_axes=1`); an unknown `loss_fn` raises `NotImplementedError` (`none`).
The stacked output keeps the static time length of `online_sf`. -/
def SFTDError.call (bootstrap_n : ℕ) (loss_fn : String) (online_sf : T3)
    (online_actions : List ℕ) (cumulants : Mat) (discounts : Vec) (target_sf : T3)
    (lambda_ : Vec) (selector_actions : List ℕ) : Option Mat :=
  let C := ((online_sf.headD []).headD []).length
  if loss_fn = "qlearning" then
    some (stackColsN online_sf.length ((List.range C).map (fun c =>
      transformed_n_step_q_learning (sliceC online_sf c) online_actions
        (sliceC target_sf c) selector_actions (colOf cumulants c) discounts
        bootstrap_n)))
  else if loss_fn = "qlambda" then
    some (stackColsN online_sf.length ((List.range C).map (fun c =>
      q_learning_lambda (sliceC online_sf c) online_actions (colOf cumulants c)
        discounts (sliceC target_sf c) selector_actions lambda_)))
  else none

/-!  Configuration of `MtrlDynaUsfaLossFn` (usfa_dyna_offtask.py:490-520).
`discount` is inherited from the `basics.RecurrentLossFn` base class, whose
module is not among the provided sources; modelled from the spec (§3:
"`discount` (0 at episode boundary, else γ-scalable factor)") as the scalar γ
the loss multiplies the data discounts by. -/

/-- Configuration fields of `MtrlDynaUsfaLossFn`. -/
structure LossCfg where
  discount : ℚ
  bootstrap_n : ℕ
  weighted_coeff : ℚ
  unweighted_coeff : ℚ
  action_mask : Bool
  task_coeff : ℚ
  loss_fn : String
  lambda_ : ℚ
  dyna_coeff : ℚ
  n_actions_dyna : ℕ
  n_tasks_dyna : ℕ
  simulation_steps : ℕ
  feature_coeff : ℚ
  model_sf_coeff : ℚ
  model_coeff : ℚ
  action_coeff : ℚ
  cat_coeff : ℚ
  binary_feature_loss : Bool
  mask_zero_features : ℚ
deriving Repr, DecidableEq

/-- Source `extract_cumulants = cumulants_from_env` default of
`MtrlDynaUsfaLossFn` (usfa_dyna_offtask.py:493, sf_agents.py:72-73): the
observation's state-feature sequence. -/
def extract_cumulants (data : TrajData) : T3 := data.observation.state_features

/-- Source `extract_tasks` default of `MtrlDynaUsfaLossFn`
(usfa_dyna_offtask.py:494): the observation's train-task set. -/
def extract_tasks (data : TrajData) : T4 := data.observation.train_tasks

/-- Metric values are tensors of heterogeneous rank; a rose tree of rationals
stores them uniformly. -/
inductive Tensor where
  | s : ℚ → Tensor
  | l : List Tensor → Tensor
deriving Repr

/-- Embed a vector as a metric tensor. -/
def Tensor.ofVec (v : Vec) : Tensor := .l (v.map .s)

/-- Embed a matrix as a metric tensor. -/
def Tensor.ofMat (m : Mat) : Tensor := .l (m.map Tensor.ofVec)

/-- Embed a rank-3 tensor as a metric tensor. -/
def Tensor.ofT3 (x : T3) : Tensor := .l (x.map Tensor.ofMat)

/-- Embed a rank-4 tensor as a metric tensor. -/
def Tensor.ofT4 (x : T4) : Tensor := .l (x.map Tensor.ofT3)

/-- Flat metrics mapping with namespaced string keys (spec §4.6). -/
abbrev Metrics := List (String × Tensor)

/-- The loss accumulator of `MtrlDynaUsfaLossFn.error` starts as a `[B]`
vector and is broadcast to a `[T-1, B]` matrix when the on-task term is added;
this sum type records the current rank. -/
inductive LossAcc where
  | v : Vec → LossAcc
  | m : Mat → LossAcc
deriving Repr

/-- Add a `[B]` vector to the accumulator (numpy broadcasting at the ranks
that occur: same-shape add on a vector accumulator, row-broadcast add on a
matrix accumulator). -/
def LossAcc.addVec : LossAcc → Vec → LossAcc
  | .v a, b => .v (vadd a b)
  | .m a, b => .m (a.map (fun row => vadd row b))

/-- Add a `[T-1, B]` matrix to the accumulator (numpy broadcasting: a vector
accumulator is broadcast across the rows of the matrix). -/
def LossAcc.addMat : LossAcc → Mat → LossAcc
  | .v a, b => .m (b.map (fun row => vadd a row))
  | .m a, b => .m (madd a b)

/-- Store the accumulator as a metric tensor. -/
def LossAcc.toTensor : LossAcc → Tensor
  | .v a => Tensor.ofVec a
  | .m a => Tensor.ofMat a

instance : Inhabited ModelOuputs := ⟨⟨[], [], [], none, none⟩⟩

/-- Column `b` of a `[T, B, C]` tensor: the slice `jax.vmap` with `in_axes=1`
hands to the mapped function. -/
def col3 (x : T3) (b : ℕ) : Mat := x.map (fun m => m.getD b [])

/-- Column `b` of a `[T, B, A, C]` tensor. -/
def col4 (x : T4) (b : ℕ) : T3 := x.map (fun t3 => t3.getD b [])

/-- Column `b` of a `[T, B]` integer array. -/
def colN (x : List (List ℕ)) (b : ℕ) : List ℕ := x.map (fun r => r.getD b 0)

/-- Scale a `[T, B, A, C]` tensor elementwise by a `[T, B]` mask
(`sf * episode_mask[:, :, None, None]` of the source). -/
def maskT4 (sf : T4) (mask : Mat) : T4 :=
  List.zipWith (fun sfT maskT =>
    List.zipWith (fun ac mv => ac.map (fun row => row.map (fun x => x * mv))) sfT maskT)
    sf mask

/-- Task sampling of `MtrlDynaUsfaLossFn.multitask_dyna_loss`
(usfa_dyna_offtask.py:872-877): split the call key two ways, then draw
`min(max_tasks, n_tasks_dyna)` task indices without replacement with the
second key. -/
def multitask_sampled_task_indices (cfg : LossCfg) (rng_key : Key) (max_tasks : ℕ) :
    List ℕ :=
  jax_random_choice_noreplace (jax_random_split2 rng_key).2 max_tasks
    (min max_tasks cfg.n_tasks_dyna)

/-- Action sampling of `sf_dyna_td` (usfa_dyna_offtask.py:796-807): split the
key, draw `min(n_actions_dyna, num_actions)` distinct actions without
replacement, and append the greedy action under the current Q-values. -/
def dyna_candidate_actions (cfg : LossCfg) (key : Key) (num_actions : ℕ)
    (q_values : Vec) : List ℕ :=
  let sample_key := (jax_random_split2 key).2
  let nactions := min cfg.n_actions_dyna num_actions
  jax_random_choice_noreplace sample_key num_actions nactions ++ [argmax q_values]

/-- Source `sf_dyna_td` inside `multitask_dyna_loss`
(usfa_dyna_offtask.py:774-867): for one sampled task, sample candidate
actions, apply the learned model once per candidate with online and with
target parameters, recompute successor features at the predicted next states
(online parameters for action-selection Q-values, target parameters for the
bootstrap target), and take the one-step double-SF TD error per candidate.
`jax.lax.stop_gradient` is the identity on values and is dropped. -/
def sf_dyna_td (cfg : LossCfg) (networks : MbrlSfNetworks)
    (params target_params : Params) (num_actions : ℕ)
    (online_state target_state : Vec) (sf : Mat) (q_values task : Vec)
    (discounts_ : ℚ) (key : Key) : Mat :=
  let sampled_actions := dyna_candidate_actions cfg key num_actions q_values
  let key1 := (jax_random_split2 key).1
  let nactions := sampled_actions.length
  let s1 := split_key key1 nactions
  let modelOuts := List.zipWith
    (fun k a => (networks.apply_model params k online_state a).1) s1.2 sampled_actions
  let s2 := split_key s1.1 nactions
  let targetModelOuts := List.zipWith
    (fun k a => (networks.apply_model target_params k target_state a).1) s2.2 sampled_actions
  let s3 := split_key s2.1 nactions
  let next_predictions := List.zipWith
    (fun k mo => networks.compute_sfs params k mo.state task) s3.2 modelOuts
  let s4 := split_key s3.1 nactions
  let target_next_predictions := List.zipWith
    (fun k mo => networks.compute_sfs target_params k mo.state task) s4.2 targetModelOuts
  let next_predictions :=
    if cfg.action_mask then
      batch_mask_predictions next_predictions
        (modelOuts.map (fun mo => mo.action_mask.getD []))
    else next_predictions
  let target_next_predictions :=
    if cfg.action_mask then
      batch_mask_predictions target_next_predictions
        (modelOuts.map (fun mo => mo.action_mask.getD []))
    else target_next_predictions
  (List.range nactions).map (fun k =>
    one_step_sf_td sf (sampled_actions.getD k 0)
      ((modelOuts.getD k default).state_features)
      ((target_next_predictions.getD k default).sf)
      discounts_
      ((next_predictions.getD k default).q_values))

/-- Source `MtrlDynaUsfaLossFn.multitask_dyna_loss`
(usfa_dyna_offtask.py:703-935) at the per-(t, b) element rank handed to it by
the double `jax.vmap` in `error`: sample tasks, compute their successor
features at the current latent state, run `sf_dyna_td` per sampled task, and
combine the TD errors with the default task-weighted loss.  The default
`TaskWeightedSFLossFn()` always dispatches successfully (its fields are the
literals `'reg'`/`'loss'`), so the `getD` fallback is unreachable. -/
def multitask_dyna_loss (cfg : LossCfg) (networks : MbrlSfNetworks)
    (params target_params : Params) (discounts : ℚ)
    (online_preds target_preds : Predictions) (tasks : Mat) (action_mask : Vec)
    (rng_key : Key) : ℚ × ℚ × Metrics :=
  let num_actions := online_preds.q_values.length
  let max_tasks := tasks.length
  let ntasks := min max_tasks cfg.n_tasks_dyna
  let taskIdx := multitask_sampled_task_indices cfg rng_key max_tasks
  let sampled_tasks := taskIdx.map (fun i => tasks.getD i [])
  let rk1 := (jax_random_split2 rng_key).1
  let s1 := split_key rk1 ntasks
  let predictions := List.zipWith
    (fun k tk => networks.compute_sfs params k online_preds.state tk) s1.2 sampled_tasks
  let predictions :=
    if cfg.action_mask then predictions.map (fun p => mask_predictions p action_mask)
    else predictions
  let s2 := split_key s1.1 ntasks
  let td_errors := (List.range ntasks).map (fun m =>
    sf_dyna_td cfg networks params target_params num_actions online_preds.state
      target_preds.state ((predictions.getD m default).sf)
      ((predictions.getD m default).q_values) (sampled_tasks.getD m []) discounts
      (s2.2.getD m 0))
  let pairs := (List.range ntasks).map (fun m =>
    (TaskWeightedSFLossFn.default.callMat (td_errors.getD m [])
      (sampled_tasks.getD m [])).getD ([], []))
  let task_weighted_loss := pairs.map Prod.fst
  let unweighted_loss := pairs.map Prod.snd
  let batch_loss := List.zipWith
    (fun a b => vadd (vscale cfg.weighted_coeff a) (vscale cfg.unweighted_coeff b))
    task_weighted_loss unweighted_loss
  let td_mean := t3mean td_errors
  let batch_loss_mean := mmean batch_loss
  let metrics : Metrics :=
    [("0.total_loss", Tensor.s batch_loss_mean),
     ("1.unweighted_loss", Tensor.ofMat unweighted_loss),
     ("1.task_weighted_loss", Tensor.ofMat task_weighted_loss),
     ("2.td_error", Tensor.s |td_mean|)]
  (td_mean, batch_loss_mean, metrics)

/-- Source `MtrlDynaUsfaLossFn.ontask_loss` (usfa_dyna_offtask.py:628-701):
mask the online and target successor features by the episode mask, run
`SFTDError` per batch element over the `t`/`t+1` trajectory slices with
double-Q selector actions, combine per-step TD errors with the default
task-weighted loss, and average the TD error over the cumulant axis.  The
stacked `out_axes=1` result keeps the static `T-1` time length of the sliced
inputs.  `none` exactly when `SFTDError` rejects the configured `loss_fn`. -/
def MtrlDynaUsfaLossFn.ontask_loss (cfg : LossCfg) (data : TrajData)
    (online_preds target_preds : PredictionsTB) (episode_mask : Mat) :
    Option (Mat × Mat × Metrics) :=
  let online_sf := maskT4 online_preds.sf episode_mask
  let target_sf := maskT4 target_preds.sf episode_mask
  let cumulants := extract_cumulants data
  let discounts := data.discount.map (fun row => row.map (fun d => d * cfg.discount))
  let lambda_ := data.discount.map (fun row => row.map (fun d => d * cfg.lambda_))
  let selector_actions := online_preds.q_values.map (fun bRow => bRow.map argmax)
  let B := (data.discount.headD []).length
  ((List.range B).mapM (fun b =>
    SFTDError.call cfg.bootstrap_n cfg.loss_fn
      (col4 online_sf.dropLast b)
      (colN data.action.dropLast b)
      (col3 cumulants b)
      (colOf discounts.dropLast b)
      (col4 (target_sf.drop 1) b)
      (colOf lambda_.dropLast b)
      (colN (selector_actions.drop 1) b))).bind (fun perB =>
  let Tm1 := online_sf.dropLast.length
  let td_errors : T3 := (List.range Tm1).map (fun t =>
    (List.range B).map (fun b => (perB.getD b []).getD t []))
  let taskTB := online_preds.task.dropLast
  let tw_uw := List.zipWith (fun tdRow taskRow =>
    List.zipWith (fun td tk => (TaskWeightedSFLossFn.default.call td tk).getD (0, 0))
      tdRow taskRow) td_errors taskTB
  let task_weighted_loss := tw_uw.map (fun r => r.map Prod.fst)
  let unweighted_loss := tw_uw.map (fun r => r.map Prod.snd)
  let batch_loss := madd (mscale cfg.weighted_coeff task_weighted_loss)
    (mscale cfg.unweighted_coeff unweighted_loss)
  let td_means := td_errors.map (fun m => m.map vmean)
  let metrics : Metrics :=
    [("0.total_loss", Tensor.ofMat batch_loss),
     ("1.unweighted_loss", Tensor.ofMat unweighted_loss),
     ("1.task_weighted_loss", Tensor.ofMat task_weighted_loss),
     ("2.td_error", Tensor.ofMat (td_means.map (fun r => r.map (fun x => |x|)))),
     ("3.cumulants", Tensor.ofT3 cumulants),
     ("3.sf_mean", Tensor.ofT4 online_sf),
     ("3.sf_var", Tensor.ofT3 (online_sf.map (fun t3 => t3.map (fun m => m.map vvar))))]
  some (td_means, batch_loss, metrics))

/-- Source `MtrlDynaUsfaLossFn.model_loss` (usfa_dyna_offtask.py:937-1207),
invoked per batch column by `jax.vmap(·, in_axes=1)`.  After the
`simulation_steps < len(online_preds.state)` precondition (line 952, a fatal
assert, modelled as `none`), the source cannot complete on either
configuration of `action_mask`:

* with `action_mask=True`, line 1069 calls `make_episode_mask` on the
  batch-sliced data, whose `discount` is rank 1 inside the vmap; the
  `T, B = data.discount.shape` unpack in `make_episode_mask` raises
  `ValueError` at trace time;
* with `action_mask=False`, `action_loss_mask` is the rank-2
  `state_features_mask` (line 1060), and the final
  `apply_mask(action_mask_loss, action_loss_mask)` (line 1192) feeds a rank-2
  mask and a rank-1 per-step loss to `episode_mean`, whose
  `jnp.multiply(x, mask)` raises on the mismatched trailing axes (outside
  coincidental widths `C = T-simulation_steps`, `C = 1` or
  `T-simulation_steps = 1`, not modelled).

Both branches therefore abort, modelled as `none`. -/
def MtrlDynaUsfaLossFn.model_loss (cfg : LossCfg) (_networks : MbrlSfNetworks)
    (_params : Params) (_rng_key : Key) (_discount : Vec) (online_state : Mat) :
    Option (ℚ × Metrics) :=
  if cfg.simulation_steps < online_state.length then
    none
  else
    none

/-- Source `MtrlDynaUsfaLossFn.error` (usfa_dyna_offtask.py:522-626): the
top-level orchestrator.  It accumulates the Dyna, on-task and model terms into
a `[T, B]` TD-error tensor and a loss accumulator, each term guarded by the
strict positivity of its coefficient, prefixes each sub-loss's metrics with
its namespace, records the total loss, and returns the TD error with its last
time row removed (`total_batch_td_error[:-1]`, line 625).  The unused
`online_state`/`target_state` parameters of the source signature are omitted.
`none` models the fatal paths: the `assert T > 1` of the on-task branch, an
unknown `loss_fn`, a missing observation action mask when `action_mask` is
set, and the aborts of `model_loss`. -/
def MtrlDynaUsfaLossFn.error (cfg : LossCfg) (data : TrajData)
    (online_preds target_preds : PredictionsTB) (networks : MbrlSfNetworks)
    (params target_params : Params) (key_grad : Key) :
    Option (Mat × LossAcc × Metrics) :=
  let T := data.discount.length
  let B := (data.discount.headD []).length
  let episode_mask := make_episode_mask data false
  let step1 : Option (Key × Mat × LossAcc × Metrics) :=
    if 0 < cfg.dyna_coeff then
      if cfg.action_mask ∧ data.observation.action_mask = none then none
      else
        let train_tasks := extract_tasks data
        let s := split_key key_grad (T * B)
        let loss_keys := (List.range T).map (fun t =>
          (List.range B).map (fun b => s.2.getD (t * B + b) 0))
        let grid := (List.range T).map (fun t => (List.range B).map (fun b =>
          multitask_dyna_loss cfg networks params target_params
            ((data.discount.getD t []).getD b 0)
            (elemPreds online_preds t b) (elemPreds target_preds t b)
            ((train_tasks.getD t []).getD b [])
            (if cfg.action_mask then
              ((data.observation.action_mask.getD []).getD t []).getD b []
            else [(episode_mask.getD t []).getD b 0])
            ((loss_keys.getD t []).getD b 0)))
        let dyna_td_error := grid.map (fun row => row.map (fun e => e.1))
        let dyna_loss_grid := grid.map (fun row => row.map (fun e => e.2.1))
        let dyna_batch_loss := episode_meanM dyna_loss_grid episode_mask
        let keys0 := ((grid.headD []).headD (0, 0, [])).2.2.map Prod.fst
        let dyna_metrics : Metrics := keys0.map (fun k =>
          (k, Tensor.l (grid.map (fun row =>
            Tensor.l (row.map (fun e => (List.lookup k e.2.2).getD (Tensor.s 0)))))))
        some (s.1,
          madd (mzero T B) (mscale cfg.dyna_coeff dyna_td_error),
          LossAcc.addVec (LossAcc.v (List.replicate B 0))
            (vscale cfg.dyna_coeff dyna_batch_loss),
          dyna_metrics.map (fun kv => ("2.dyna." ++ kv.1, kv.2)))
    else some (key_grad, mzero T B, LossAcc.v (List.replicate B 0), [])
  step1.bind (fun s1 =>
  let step2 : Option (Mat × LossAcc × Metrics) :=
    if 0 < cfg.task_coeff then
      if 1 < T then
        (MtrlDynaUsfaLossFn.ontask_loss cfg data online_preds target_preds
          episode_mask).map (fun ot =>
            let padded := ot.1 ++ [List.replicate B 0]
            (madd s1.2.1 (mscale cfg.task_coeff padded),
             LossAcc.addMat s1.2.2.1 (mscale cfg.task_coeff ot.2.1),
             s1.2.2.2 ++ ot.2.2.map (fun kv => ("1.online." ++ kv.1, kv.2))))
      else none
    else some (s1.2.1, s1.2.2.1, s1.2.2.2)
  step2.bind (fun s2 =>
  let step3 : Option (Mat × LossAcc × Metrics) :=
    if 0 < cfg.model_coeff then
      ((List.range B).mapM (fun b =>
        MtrlDynaUsfaLossFn.model_loss cfg networks params s1.1
          (colOf data.discount b) (col3 online_preds.state b))).map (fun cols =>
          let model_batch_loss := cols.map Prod.fst
          let model_metrics_keys := (cols.headD (0, [])).2.map Prod.fst
          let model_metrics : Metrics := model_metrics_keys.map (fun k =>
            (k, Tensor.l (cols.map (fun c => (List.lookup k c.2).getD (Tensor.s 0)))))
          (s2.1, LossAcc.addVec s2.2.1 (vscale cfg.model_coeff model_batch_loss),
           s2.2.2 ++ model_metrics.map (fun kv => ("3.model." ++ kv.1, kv.2))))
    else some s2
  step3.map (fun s3 =>
    (s3.1.dropLast, s3.2.1, s3.2.2 ++ [("0.total_loss", s3.2.1.toTensor)]))))

/-!  Helper lemmas. -/

/-- Entry of a `zipWith` at an in-range index. -/
theorem zipWith_getD_of_lt {α β γ : Type} (f : α → β → γ) (as : List α) (bs : List β)
    (i : ℕ) (d : γ) (da : α) (db : β) (ha : i < as.length) (hb : i < bs.length) :
    (List.zipWith f as bs).getD i d = f (as.getD i da) (bs.getD i db) := by
  induction as generalizing bs i with
  | nil => simp at ha
  | cons a as ih =>
    cases bs with
    | nil => simp at hb
    | cons b bs =>
      cases i with
      | zero => simp [List.getD]
      | succ i =>
        simp only [List.zipWith_cons_cons, List.getD_cons_succ]
        exact ih bs i (by simpa using ha) (by simpa using hb)

/-- A masked sum against an all-zero mask vanishes. -/
theorem vmul_sum_eq_zero_of_mask_zero (x mask : Vec) (h : ∀ m ∈ mask, m = 0) :
    (vmul x mask).sum = 0 := by
  induction x generalizing mask with
  | nil => simp [vmul]
  | cons a x ih =>
    cases mask with
    | nil => simp [vmul]
    | cons m ms =>
      have hm : m = 0 := h m (List.mem_cons_self m ms)
      have hms : ∀ m ∈ ms, m = 0 := fun q hq => h q (List.mem_cons_of_mem m hq)
      have ih2 := ih ms hms
      simp only [vmul] at ih2 ⊢
      simp [hm, ih2]

/-- Reordered summand form of the task-weighted combination: weighting the
squared errors by the task equals the spec's `task[c] * 0.5 * td[c]^2` sum. -/
theorem taskWeighted_sum_comm (td task : Vec) :
    (vmul (td.map (fun e => 1 / 2 * e ^ 2)) task).sum =
      (List.zipWith (fun w e => w * (1 / 2 * e ^ 2)) task td).sum := by
  induction td generalizing task with
  | nil => cases task <;> simp [vmul]
  | cons e td ih =>
    cases task with
    | nil => simp [vmul]
    | cons w ws =>
      have ih2 := ih ws
      simp only [vmul] at ih2 ⊢
      simp only [List.map_cons, List.zipWith_cons_cons, List.sum_cons]
      rw [ih2]
      ring

/-!  Claim C3.  The episode-mask formula, spec §6, written independently of
the implementation. -/

/-- The include-final mask exactly as spec §6 words it:
`concat(ones(2,B), discount[:-2])`, with the python slice written as a double
`dropLast`. -/
def spec_include_final_mask (discount : Mat) (B : ℕ) : Mat :=
  List.replicate 2 (List.replicate B 1) ++ discount.dropLast.dropLast

/-- The exclude-final mask exactly as spec §6 words it:
`concat(ones(1,B), discount[:-1])`. -/
def spec_exclude_final_mask (discount : Mat) (B : ℕ) : Mat :=
  List.replicate 1 (List.replicate B 1) ++ discount.dropLast

/-- Claim C3: for every `[T, B]` discount tensor, `make_episode_mask` returns
`concat(ones(2,B), discount[:-2])` along the time axis when `include_final`
is true and `concat(ones(1,B), discount[:-1])` when it is false. -/
theorem make_episode_mask_matches_spec_formula (data : TrajData) :
    make_episode_mask data true =
      spec_include_final_mask data.discount (data.discount.headD []).length
    ∧ make_episode_mask data false =
      spec_exclude_final_mask data.discount (data.discount.headD []).length := by
  constructor
  · simp only [make_episode_mask, spec_include_final_mask, if_pos]
    congr 1
    rw [List.dropLast_eq_take, List.dropLast_eq_take, List.take_take,
      List.length_take]
    congr 1
    omega
  · simp only [make_episode_mask, spec_exclude_final_mask, if_neg]
    rw [List.dropLast_eq_take]
    simp

/-!  Claim C2.  The spec §8 example disagrees with the implementation: for a
discount column `[1,1,1,0,0]` the code's exclude-final mask is `[1,1,1,1,0]`
(not `[1,1,1,0,0]`) and its include-final mask is `[1,1,1,1,1]` (not
`[1,1,1,1,0]`). -/

/-- Trajectory whose single-episode discount column is `[1,1,1,0,0]`. -/
def dataC2 : TrajData :=
  ⟨⟨[], [], [], none⟩, [], [], [[1], [1], [1], [0], [0]]⟩

/-- Claim C2 counterexample: on discount column `[1,1,1,0,0]` the masks the
claim predicts are not the masks `make_episode_mask` returns. -/
theorem make_episode_mask_example_refuted :
    ¬ (make_episode_mask dataC2 false = [[1], [1], [1], [0], [0]]
       ∧ make_episode_mask dataC2 true = [[1], [1], [1], [1], [0]]) := by
  decide

/-- Claim C2 amended: on discount column `[1,1,1,0,0]` the exclude-final mask
equals `[1,1,1,1,0]` and the include-final mask equals `[1,1,1,1,1]` (the
spec's example masks, shifted one step later). -/
theorem make_episode_mask_example_amended :
    make_episode_mask dataC2 false = [[1], [1], [1], [1], [0]]
    ∧ make_episode_mask dataC2 true = [[1], [1], [1], [1], [1]] := by
  decide

/-- Reduction of the default `TaskWeightedSFLossFn()` call: the literal
`'reg'`/`'loss'` dispatch evaluates, leaving the weighted and unweighted
formulas. -/
theorem TaskWeighted_default_call_eq (td_error task_w : Vec) :
    TaskWeightedSFLossFn.default.call td_error task_w =
      some ((vmul (td_error.map (fun e => 1 / 2 * e ^ 2)) task_w).sum,
        1 / 2 * td_error.sum ^ 2) := rfl

/-- Reduction of the `sum_cumulants=False` variant of the default call. -/
theorem TaskWeighted_mean_call_eq (td_error task_w : Vec) :
    (TaskWeightedSFLossFn.mk "reg" "loss" false).call td_error task_w =
      some ((vmul (td_error.map (fun e => 1 / 2 * e ^ 2)) task_w).sum,
        1 / 2 * vmean td_error ^ 2) := rfl

/-- Claim C4: with `weight_type='reg'` and `combination='loss'` the
task-weighted loss is `sum_c task[c] * 0.5 * td_error[c]^2`; in particular
`td_error=[1,2]`, `task=[0.5,-1]` yields `-1.75`. -/
theorem taskWeighted_reg_loss_formula :
    (∀ td_error task_w : Vec,
      (TaskWeightedSFLossFn.default.call td_error task_w).map Prod.fst =
        some ((List.zipWith (fun w e => w * (1 / 2 * e ^ 2)) task_w td_error).sum))
    ∧ (TaskWeightedSFLossFn.default.call [1, 2] [1 / 2, -1]).map Prod.fst =
        some (-(7 / 4)) := by
  have hgen : ∀ td_error task_w : Vec,
      (TaskWeightedSFLossFn.default.call td_error task_w).map Prod.fst =
        some ((List.zipWith (fun w e => w * (1 / 2 * e ^ 2)) task_w td_error).sum) := by
    intro td task
    rw [TaskWeighted_default_call_eq]
    exact congrArg some (taskWeighted_sum_comm td task)
  refine ⟨hgen, ?_⟩
  rw [hgen [1, 2] [1 / 2, -1]]
  norm_num

/-!  Claim C5.  The source computes the unweighted loss as
`0.5 * (sum_c td[c])^2` (sum first, then square) — not the claim's
`sum_c 0.5 * td[c]^2`. -/

/-- Claim C5 counterexample: at `td_error=[1,2]` the unweighted loss is
`0.5*(1+2)^2 = 4.5`, which differs from the claim's
`0.5*1^2 + 0.5*2^2 = 2.5`. -/
theorem unweighted_loss_sum_square_refuted :
    (TaskWeightedSFLossFn.default.call [1, 2] [0, 0]).map Prod.snd = some (9 / 2)
    ∧ ((9 : ℚ) / 2) ≠ 1 / 2 * 1 ^ 2 + 1 / 2 * 2 ^ 2 := by
  constructor
  · rw [TaskWeighted_default_call_eq]
    norm_num
  · norm_num

/-- Claim C5 amended: with `sum_cumulants=true` (the default) the unweighted
loss is half the square of the TD errors summed across cumulants,
`0.5*(sum_c td[c])^2`, and with `sum_cumulants=false` it is half the square of
their average, `0.5*(mean_c td[c])^2`. -/
theorem unweighted_loss_formula :
    (∀ td_error task_w : Vec,
      (TaskWeightedSFLossFn.default.call td_error task_w).map Prod.snd =
        some (1 / 2 * td_error.sum ^ 2))
    ∧ (∀ td_error task_w : Vec, td_error ≠ [] →
      ((TaskWeightedSFLossFn.mk "reg" "loss" false).call td_error task_w).map Prod.snd =
        some (1 / 2 * vmean td_error ^ 2)) := by
  constructor
  · intro td task
    rw [TaskWeighted_default_call_eq]
    simp
  · intro td task _
    rw [TaskWeighted_mean_call_eq]
    simp

/-- Witness for the amended claim C5 at `td_error=[1,2]`, `task=[0,0]`. -/
theorem unweighted_loss_formula_witness :
    ([1, 2] : Vec) ≠ []
    ∧ ((TaskWeightedSFLossFn.mk "reg" "loss" false).call [1, 2] [0, 0]).map Prod.snd =
        some (1 / 2 * vmean [1, 2] ^ 2) :=
  ⟨by decide, unweighted_loss_formula.2 [1, 2] [0, 0] (by decide)⟩

/-- Claim C10: `episode_mean` is total: it divides the masked sum by
`mask.sum(0) + 1e-5`, the denominator is strictly positive for every
(nonnegative) mask, and an all-zero mask yields zero rather than a division
by zero. -/
theorem episode_mean_total (x mask : Vec) (hpos : ∀ m ∈ mask, 0 ≤ m) :
    episode_mean x mask = (vmul x mask).sum / (mask.sum + 1 / 100000)
    ∧ 0 < mask.sum + 1 / 100000
    ∧ ((∀ m ∈ mask, m = 0) → episode_mean x mask = 0) := by
  refine ⟨rfl, ?_, ?_⟩
  · have h := List.sum_nonneg hpos
    linarith
  · intro hz
    rw [episode_mean, vmul_sum_eq_zero_of_mask_zero x mask hz, zero_div]

/-- Witness for claim C10 at `x=[3,5]` and the all-zero mask `[0,0]`. -/
theorem episode_mean_total_witness :
    (∀ m ∈ ([0, 0] : Vec), 0 ≤ m) ∧ episode_mean [3, 5] [0, 0] = 0 := by
  have h : ∀ m ∈ ([0, 0] : Vec), 0 ≤ m := by decide
  exact ⟨h, (episode_mean_total [3, 5] [0, 0] h).2.2 (by decide)⟩

/-!  Claim C9. -/

/-- Claim C9: `mask_predictions` keeps q-values where the mask is nonzero and
pushes them to `LARGE_NEGATIVE = -1e7` where it is zero, zeroes the
successor-feature row of every masked-out action, records the mask, and
leaves `state`, `policy` and `task` unchanged. -/
theorem mask_predictions_spec (p : Predictions) (am : Vec)
    (hq : p.q_values.length = am.length) (hsf : p.sf.length = am.length) :
    (∀ a < am.length, (mask_predictions p am).q_values.getD a 0 =
        if am.getD a 0 ≠ 0 then p.q_values.getD a 0 else LARGE_NEGATIVE)
    ∧ (∀ a < am.length, (mask_predictions p am).sf.getD a [] =
        if am.getD a 0 ≠ 0 then p.sf.getD a []
        else (p.sf.getD a []).map (fun _ => (0 : ℚ)))
    ∧ (mask_predictions p am).state = p.state
    ∧ (mask_predictions p am).policy = p.policy
    ∧ (mask_predictions p am).task = p.task
    ∧ (mask_predictions p am).action_mask = some am := by
  refine ⟨?_, ?_, rfl, rfl, rfl, rfl⟩
  · intro a ha
    have := zipWith_getD_of_lt
      (fun m x => if m ≠ 0 then x else LARGE_NEGATIVE) am p.q_values a 0 0 0
      ha (by omega)
    simpa [mask_predictions] using this
  · intro a ha
    have := zipWith_getD_of_lt
      (fun m (row : Vec) => if m ≠ 0 then row else row.map (fun _ => (0 : ℚ)))
      am p.sf a [] 0 [] ha (by omega)
    simp only [mask_predictions] at this ⊢
    rw [this]

/-- Witness for claim C9 at a two-action prediction and mask `[1, 0]`. -/
theorem mask_predictions_spec_witness :
    (([5, 6] : Vec).length = ([1, 0] : Vec).length)
    ∧ (mask_predictions ⟨[9], [5, 6], [[1, 2], [3, 4]], [7], [8], none⟩ [1, 0]).action_mask
        = some [1, 0]
    ∧ (mask_predictions ⟨[9], [5, 6], [[1, 2], [3, 4]], [7], [8], none⟩ [1, 0]).q_values.getD 1 0
        = LARGE_NEGATIVE := by
  have h := mask_predictions_spec ⟨[9], [5, 6], [[1, 2], [3, 4]], [7], [8], none⟩ [1, 0]
    (by decide) (by decide)
  refine ⟨by decide, h.2.2.2.2.2, ?_⟩
  have h1 := h.1 1 (by norm_num)
  simpa using h1

/-!  Claim C7: sampling behaviour of the Dyna loss. -/

/-- The modelled no-replacement choice returns `min k n` indices. -/
theorem choice_noreplace_length (key n k : ℕ) :
    (jax_random_choice_noreplace key n k).length = min k n := by
  simp [jax_random_choice_noreplace]

/-- The modelled no-replacement choice returns pairwise-distinct indices. -/
theorem choice_noreplace_nodup (key n k : ℕ) :
    (jax_random_choice_noreplace key n k).Nodup :=
  (List.nodup_rotate.mpr (List.nodup_range n)).sublist (List.take_sublist _ _)

/-- The modelled no-replacement choice returns in-range indices. -/
theorem choice_noreplace_mem (key n k i : ℕ)
    (h : i ∈ jax_random_choice_noreplace key n k) : i < n := by
  have h2 : i ∈ (List.range n).rotate key :=
    (List.take_sublist _ _).mem h
  exact List.mem_range.mp (List.mem_rotate.mp h2)

/-- Claim C7: each Dyna call samples exactly `min(n_tasks_dyna, |tasks|)`
distinct in-range task indices and `K = min(n_actions_dyna, num_actions)`
distinct in-range actions without replacement (requesting more than are
available caps at the available count rather than failing), appends the
greedy action under the current Q-values as the final candidate, and
evaluates `K + 1` candidate actions per sampled task (the length of the
per-task TD-error output of `sf_dyna_td`). -/
theorem dyna_sampling_spec (cfg : LossCfg) (networks : MbrlSfNetworks)
    (params target_params : Params) (rng_key action_key td_key : Key)
    (max_tasks num_actions : ℕ) (online_state target_state : Vec) (sf : Mat)
    (q_values task : Vec) (discounts_ : ℚ) :
    (multitask_sampled_task_indices cfg rng_key max_tasks).length =
      min max_tasks cfg.n_tasks_dyna
    ∧ (multitask_sampled_task_indices cfg rng_key max_tasks).Nodup
    ∧ (∀ i ∈ multitask_sampled_task_indices cfg rng_key max_tasks, i < max_tasks)
    ∧ (dyna_candidate_actions cfg action_key num_actions q_values).length =
        min cfg.n_actions_dyna num_actions + 1
    ∧ (dyna_candidate_actions cfg action_key num_actions q_values).dropLast.Nodup
    ∧ (∀ a ∈ (dyna_candidate_actions cfg action_key num_actions q_values).dropLast,
        a < num_actions)
    ∧ (dyna_candidate_actions cfg action_key num_actions q_values).getLast? =
        some (argmax q_values)
    ∧ (sf_dyna_td cfg networks params target_params num_actions online_state
        target_state sf q_values task discounts_ td_key).length =
        min cfg.n_actions_dyna num_actions + 1 := by
  have hdl : (dyna_candidate_actions cfg action_key num_actions q_values).dropLast =
      jax_random_choice_noreplace (jax_random_split2 action_key).2 num_actions
        (min cfg.n_actions_dyna num_actions) := by
    simp only [dyna_candidate_actions]
    exact List.dropLast_concat
  have hlen : ∀ k : Key,
      (dyna_candidate_actions cfg k num_actions q_values).length =
        min cfg.n_actions_dyna num_actions + 1 := by
    intro k
    simp only [dyna_candidate_actions, List.length_append, List.length_singleton,
      choice_noreplace_length]
    omega
  refine ⟨?_, ?_, ?_, hlen action_key, ?_, ?_, ?_, ?_⟩
  · simp only [multitask_sampled_task_indices, choice_noreplace_length]
    omega
  · exact choice_noreplace_nodup _ _ _
  · intro i hi
    exact choice_noreplace_mem _ _ _ _ hi
  · rw [hdl]
    exact choice_noreplace_nodup _ _ _
  · intro a ha
    rw [hdl] at ha
    exact choice_noreplace_mem _ _ _ _ ha
  · simp only [dyna_candidate_actions]
    exact List.getLast?_concat _
  · simp only [sf_dyna_td, List.length_map, List.length_range]
    exact hlen td_key

/-!  Shape infrastructure for the orchestrator claims. -/

/-- Shape predicate: every row of `m` has length exactly `B`. -/
def RowsExactly (B : ℕ) (m : Mat) : Prop := ∀ row ∈ m, row.length = B

/-- Shape predicate: every row of `m` has length at most `B`. -/
def RowsLe (B : ℕ) (m : Mat) : Prop := ∀ row ∈ m, row.length ≤ B

/-- Length of an elementwise matrix sum. -/
theorem length_madd (a b : Mat) : (madd a b).length = min a.length b.length := by
  simp [madd]

/-- Length of a scaled matrix. -/
theorem length_mscale (c : ℚ) (m : Mat) : (mscale c m).length = m.length := by
  simp [mscale]

/-- Length of the zero matrix. -/
theorem length_mzero (t b : ℕ) : (mzero t b).length = t := by
  simp [mzero]

/-- Rows of the zero matrix. -/
theorem rowsExactly_mzero (t b : ℕ) : RowsExactly b (mzero t b) := by
  intro row hrow
  simp [mzero] at hrow
  simp [hrow]

/-- Scaling preserves row lengths. -/
theorem rowsExactly_mscale (c : ℚ) (m : Mat) (B : ℕ) (h : RowsExactly B m) :
    RowsExactly B (mscale c m) := by
  intro row hrow
  simp only [mscale, List.mem_map] at hrow
  obtain ⟨r, hr, rfl⟩ := hrow
  simp [vscale, h r hr]

/-- Rows of a sum of matrices with equal-width rows. -/
theorem rowsExactly_madd (a b : Mat) (B : ℕ) (ha : RowsExactly B a)
    (hb : RowsExactly B b) : RowsExactly B (madd a b) := by
  intro row hrow
  simp only [madd] at hrow
  obtain ⟨i, hi, rfl⟩ := List.mem_iff_getElem.mp hrow
  rw [List.getElem_zipWith]
  simp only [vadd, List.length_zipWith]
  have hia : i < a.length := by simp at hi; omega
  have hib : i < b.length := by simp at hi; omega
  have h1 := ha _ (List.getElem_mem hia)
  have h2 := hb _ (List.getElem_mem hib)
  omega

/-- Dropping the last row preserves the row-width bound. -/
theorem rowsExactly_dropLast (m : Mat) (B : ℕ) (h : RowsExactly B m) :
    RowsExactly B m.dropLast :=
  fun row hrow => h row ((List.dropLast_sublist m).mem hrow)

/-- Adding the all-zero vector of width `B` on the left is the identity on
vectors of length at most `B`. -/
theorem vadd_replicate_zero (B : ℕ) (v : Vec) (h : v.length ≤ B) :
    vadd (List.replicate B 0) v = v := by
  induction v generalizing B with
  | nil => simp [vadd]
  | cons x xs ih =>
    cases B with
    | zero => simp at h
    | succ B =>
      simp only [List.replicate_succ, vadd, List.zipWith_cons_cons, zero_add]
      have := ih B (by simpa using h)
      simp only [vadd] at this
      rw [this]

/-- Adding the `[T, B]` zero matrix on the left is the identity on matrices
with at most `T` rows of width at most `B`. -/
theorem madd_mzero (T B : ℕ) (m : Mat) (hT : m.length ≤ T) (hB : RowsLe B m) :
    madd (mzero T B) m = m := by
  induction m generalizing T with
  | nil => simp [madd]
  | cons row rows ih =>
    cases T with
    | zero => simp at hT
    | succ T =>
      simp only [mzero, List.replicate_succ, madd, List.zipWith_cons_cons]
      congr 1
      · exact vadd_replicate_zero B row (hB row (List.mem_cons_self _ _))
      · have := ih T (by simpa using hT)
          (fun r hr => hB r (List.mem_cons_of_mem _ hr))
        simpa [madd, mzero] using this

/-- Length of the exclude-final episode mask: one leading row of ones plus
all but the last discount row. -/
theorem make_episode_mask_length (data : TrajData) (h : 1 ≤ data.discount.length) :
    (make_episode_mask data false).length = data.discount.length := by
  simp only [make_episode_mask, if_neg Bool.false_ne_true, List.length_append,
    List.length_replicate, List.length_take]
  omega

/-- Length of the masked successor-feature tensor. -/
theorem length_maskT4 (sf : T4) (mask : Mat) :
    (maskT4 sf mask).length = min sf.length mask.length := by
  simp [maskT4]

/-- A sum of matrices keeps the row-width bound of its left summand
(`zipWith` truncates at the shorter row). -/
theorem rowsLe_madd_left (a b : Mat) (B : ℕ) (ha : RowsLe B a) :
    RowsLe B (madd a b) := by
  intro row hrow
  simp only [madd] at hrow
  obtain ⟨i, hi, rfl⟩ := List.mem_iff_getElem.mp hrow
  rw [List.getElem_zipWith]
  simp only [vadd, List.length_zipWith]
  have hia : i < a.length := by simp at hi; omega
  have h1 := ha _ (List.getElem_mem hia)
  omega

/-- Scaling preserves a row-width bound. -/
theorem rowsLe_mscale (c : ℚ) (m : Mat) (B : ℕ) (h : RowsLe B m) :
    RowsLe B (mscale c m) := by
  intro row hrow
  simp only [mscale, List.mem_map] at hrow
  obtain ⟨r, hr, rfl⟩ := hrow
  simp only [vscale, List.length_map]
  exact h r hr

/-- Rows of the pairwise task-weighted combination are no wider than the
stacked TD-error rows. -/
theorem rowsLe_pairRows (B : ℕ) (g : ℚ × ℚ → ℚ) (kk : Vec → Vec → ℚ × ℚ)
    (tds tasks : T3) (h : ∀ m ∈ tds, m.length = B) :
    RowsLe B ((List.zipWith (fun tdRow taskRow => List.zipWith kk tdRow taskRow)
      tds tasks).map (fun r => r.map g)) := by
  intro row hrow
  obtain ⟨r, hr, rfl⟩ := List.mem_map.mp hrow
  obtain ⟨i, hi, rfl⟩ := List.mem_iff_getElem.mp hr
  rw [List.getElem_zipWith]
  simp only [List.length_map, List.length_zipWith]
  have hib : i < tds.length := by simp at hi; omega
  have := h _ (List.getElem_mem hib)
  omega

/-- Shapes of the on-task loss outputs: the TD-error matrix has `T - 1` time
rows of exactly the batch width `B`, and the per-step loss matrix has rows of
width at most `B` (the task-weighted combination never widens past the
stacked batch axis). -/
theorem ontask_loss_shape (cfg : LossCfg) (data : TrajData) (op tp : PredictionsTB)
    (r : Mat × Mat × Metrics)
    (hT : 1 < data.discount.length)
    (hsf : op.sf.length = data.discount.length)
    (hont : MtrlDynaUsfaLossFn.ontask_loss cfg data op tp
      (make_episode_mask data false) = some r) :
    r.1.length = data.discount.length - 1
    ∧ RowsExactly (data.discount.headD []).length r.1
    ∧ RowsLe (data.discount.headD []).length r.2.1 := by
  simp only [MtrlDynaUsfaLossFn.ontask_loss] at hont
  rw [Option.bind_eq_some] at hont
  obtain ⟨perB, hperB, hr⟩ := hont
  simp only [Option.some.injEq] at hr
  subst hr
  have hmasklen : (make_episode_mask data false).length = data.discount.length :=
    make_episode_mask_length data (by omega)
  have hTm1 : (maskT4 op.sf (make_episode_mask data false)).dropLast.length =
      data.discount.length - 1 := by
    rw [List.length_dropLast, length_maskT4, hsf, hmasklen]
    omega
  refine ⟨?_, ?_, ?_⟩
  · simp only [List.length_map, List.length_range, hTm1]
  · intro row hrow
    simp only [List.mem_map] at hrow
    obtain ⟨m, hm, rfl⟩ := hrow
    obtain ⟨t, ht, rfl⟩ := hm
    simp
  · apply rowsLe_madd_left
    apply rowsLe_mscale
    apply rowsLe_pairRows
    intro m hm
    obtain ⟨t, ht, rfl⟩ := List.mem_map.mp hm
    simp

/-- Row widths of an append. -/
theorem rowsExactly_append (m1 m2 : Mat) (B : ℕ) (h1 : RowsExactly B m1)
    (h2 : RowsExactly B m2) : RowsExactly B (m1 ++ m2) :=
  fun row hrow => (List.mem_append.mp hrow).elim (h1 row) (h2 row)

/-- Rows of a doubly `range`-indexed grid have exactly the inner width. -/
theorem rowsExactly_doubleRange {α : Type} (T B : ℕ) (g : ℕ → ℕ → α) (f : α → ℚ) :
    RowsExactly B (((List.range T).map (fun t => (List.range B).map (g t))).map
      (fun row => row.map f)) := by
  intro row hrow
  obtain ⟨m, hm, rfl⟩ := List.mem_map.mp hrow
  obtain ⟨t, ht, rfl⟩ := List.mem_map.mp hm
  simp

/-- Claim C1 amended: whenever `MtrlDynaUsfaLossFn.error` returns on a batch
whose predictions span the `T` trajectory steps, the returned TD-error tensor
has shape `[T-1, B]` — not `[T, B]`: the on-task term is padded with a zero
row to `[T, B]` inside the accumulator, but line 625's
`total_batch_td_error[:-1]` drops the final time row again before returning,
regardless of which of the task/dyna/model sub-losses are enabled. -/
theorem error_td_shape (cfg : LossCfg) (networks : MbrlSfNetworks)
    (data : TrajData) (op tp : PredictionsTB) (params target_params : Params)
    (key_grad : Key) (hsf : op.sf.length = data.discount.length) :
    ∀ r ∈ MtrlDynaUsfaLossFn.error cfg data op tp networks params target_params
        key_grad,
      r.1.length = data.discount.length - 1
      ∧ RowsExactly (data.discount.headD []).length r.1 := by
  intro r hr
  rw [Option.mem_def] at hr
  simp only [MtrlDynaUsfaLossFn.error] at hr
  rw [Option.bind_eq_some] at hr
  obtain ⟨s1, hs1, hr⟩ := hr
  rw [Option.bind_eq_some] at hr
  obtain ⟨s2, hs2, hr⟩ := hr
  rw [Option.map_eq_some'] at hr
  obtain ⟨s3, hs3, hr⟩ := hr
  subst hr
  have hstep1 : s1.2.1.length = data.discount.length
      ∧ RowsExactly (data.discount.headD []).length s1.2.1 := by
    by_cases hdy : 0 < cfg.dyna_coeff
    · rw [if_pos hdy] at hs1
      by_cases ham : cfg.action_mask ∧ data.observation.action_mask = none
      · rw [if_pos ham] at hs1
        simp at hs1
      · rw [if_neg ham] at hs1
        simp only [Option.some.injEq] at hs1
        subst hs1
        constructor
        · rw [length_madd, length_mzero, length_mscale]
          simp
        · exact rowsExactly_madd _ _ _ (rowsExactly_mzero _ _)
            (rowsExactly_mscale _ _ _ (rowsExactly_doubleRange _ _ _ _))
    · rw [if_neg hdy] at hs1
      simp only [Option.some.injEq] at hs1
      subst hs1
      exact ⟨length_mzero _ _, rowsExactly_mzero _ _⟩
  have hstep2 : s2.1.length = data.discount.length
      ∧ RowsExactly (data.discount.headD []).length s2.1 := by
    by_cases htk : 0 < cfg.task_coeff
    · rw [if_pos htk] at hs2
      by_cases hT1 : 1 < data.discount.length
      · rw [if_pos hT1] at hs2
        rw [Option.map_eq_some'] at hs2
        obtain ⟨ot, hot, hs2eq⟩ := hs2
        have hsh := ontask_loss_shape cfg data op tp ot hT1 hsf hot
        subst hs2eq
        constructor
        · rw [length_madd, length_mscale, hstep1.1, List.length_append,
            hsh.1, List.length_singleton]
          omega
        · exact rowsExactly_madd _ _ _ hstep1.2
            (rowsExactly_mscale _ _ _ (rowsExactly_append _ _ _ hsh.2.1
              (by intro row hrow; simp at hrow; simp [hrow])))
      · rw [if_neg hT1] at hs2
        simp at hs2
    · rw [if_neg htk] at hs2
      simp only [Option.some.injEq] at hs2
      subst hs2
      exact hstep1
  have hstep3 : s3.1 = s2.1 := by
    by_cases hmo : 0 < cfg.model_coeff
    · rw [if_pos hmo] at hs3
      rw [Option.map_eq_some'] at hs3
      obtain ⟨cols, hcols, hs3eq⟩ := hs3
      rw [← hs3eq]
    · rw [if_neg hmo] at hs3
      simp only [Option.some.injEq] at hs3
      rw [← hs3]
  constructor
  · rw [hstep3, List.length_dropLast, hstep2.1]
  · rw [hstep3]
    exact rowsExactly_dropLast _ _ hstep2.2

/-!  Concrete instances for counterexamples and witnesses: a two-step,
one-episode, one-action, one-cumulant batch with the model and Dyna terms
disabled. -/

/-- Witness configuration: defaults with `dyna_coeff = 0` and
`model_coeff = 0`. -/
def cfgW : LossCfg :=
  ⟨1 / 2, 1, 1, 1, false, 1, "qlearning", 9 / 10, 0, 1, 5, 5, 1, 1, 0, 1,
    1 / 100, false, 0⟩

/-- Witness observation: `[T, B, C] = [2, 1, 1]`. -/
def obsW : ObservationData :=
  ⟨[[[1]], [[1]]], [[[1]], [[0]]], [[[[1]]], [[[1]]]], none⟩

/-- Witness trajectory batch with discount `[[1], [1]]`. -/
def dataW : TrajData := ⟨obsW, [[0], [0]], [[0], [0]], [[1], [1]]⟩

/-- Witness online predictions over the two trajectory steps. -/
def opW : PredictionsTB :=
  ⟨[[[0]], [[0]]], [[[1]], [[2]]], [[[[1]]], [[[2]]]], [[[1]], [[1]]],
    [[[1]], [[1]]], none⟩

/-- Witness target predictions. -/
def tpW : PredictionsTB :=
  ⟨[[[0]], [[0]]], [[[1]], [[1]]], [[[[1]]], [[[1]]]], [[[1]], [[1]]],
    [[[1]], [[1]]], none⟩

/-- Witness network handle (constant networks). -/
def netsW : MbrlSfNetworks :=
  ⟨fun _ _ _ _ => default, fun _ _ _ _ => (default, [])⟩

/-- Claim C1 counterexample: on a discount of shape `[T, B] = [2, 1]` the
orchestrator returns a TD-error tensor with `1 = T - 1` time rows, not the
`T = 2` rows the claim asserts. -/
theorem error_td_shape_refuted :
    (MtrlDynaUsfaLossFn.error cfgW dataW opW tpW netsW 0 0 7).map
      (fun r => r.1.length) = some 1
    ∧ (MtrlDynaUsfaLossFn.error cfgW dataW opW tpW netsW 0 0 7).map
      (fun r => r.1.length) ≠ some dataW.discount.length := by
  constructor
  · rfl
  · decide

/-- Witness for the amended claim C1 at the concrete two-step batch. -/
theorem error_td_shape_witness :
    opW.sf.length = dataW.discount.length
    ∧ ∀ r ∈ MtrlDynaUsfaLossFn.error cfgW dataW opW tpW netsW 0 0 7,
        r.1.length = dataW.discount.length - 1
        ∧ RowsExactly (dataW.discount.headD []).length r.1 :=
  ⟨rfl, error_td_shape cfgW netsW dataW opW tpW 0 0 7 rfl⟩

/-- Claim C6: with `dyna_coeff ≤ 0` and `model_coeff ≤ 0` the orchestrator
returns exactly the on-task results — the TD error is the on-task TD error
scaled by `task_coeff` (the internal zero-row padding being dropped again by
the final slice), the loss is the on-task loss scaled by `task_coeff`, and
the metrics keys are exactly the on-task keys under the `1.online.`
namespace plus the `0.total_loss` key.  The right-hand side mentions none of
`networks`, `params`, `target_params` or `key_grad`: both skipped terms are
short-circuited rather than evaluated with a zero weight. -/
theorem error_shortcircuit (cfg : LossCfg) (networks : MbrlSfNetworks)
    (data : TrajData) (op tp : PredictionsTB) (params target_params : Params)
    (key_grad : Key) (otd oloss : Mat) (om : Metrics)
    (hdyna : cfg.dyna_coeff ≤ 0) (hmodel : cfg.model_coeff ≤ 0)
    (htask : 0 < cfg.task_coeff) (hT : 1 < data.discount.length)
    (hsf : op.sf.length = data.discount.length)
    (hont : MtrlDynaUsfaLossFn.ontask_loss cfg data op tp
      (make_episode_mask data false) = some (otd, oloss, om)) :
    MtrlDynaUsfaLossFn.error cfg data op tp networks params target_params key_grad =
      some (mscale cfg.task_coeff otd, LossAcc.m (mscale cfg.task_coeff oloss),
        om.map (fun kv => ("1.online." ++ kv.1, kv.2)) ++
          [("0.total_loss", (LossAcc.m (mscale cfg.task_coeff oloss)).toTensor)]) := by
  have hsh := ontask_loss_shape cfg data op tp (otd, oloss, om) hT hsf hont
  simp only [MtrlDynaUsfaLossFn.error]
  rw [if_neg (not_lt.mpr hdyna), Option.some_bind, if_pos htask, if_pos hT, hont,
    Option.map_some', Option.some_bind, if_neg (not_lt.mpr hmodel),
    Option.map_some']
  have hpad : madd
      (mzero data.discount.length (data.discount.headD []).length)
      (mscale cfg.task_coeff
        (otd ++ [List.replicate (data.discount.headD []).length 0])) =
      mscale cfg.task_coeff
        (otd ++ [List.replicate (data.discount.headD []).length 0]) := by
    apply madd_mzero
    · rw [length_mscale, List.length_append, hsh.1, List.length_singleton]
      omega
    · apply rowsLe_mscale
      intro row hrow
      rcases List.mem_append.mp hrow with h | h
      · exact (hsh.2.1 row h).le
      · simp at h
        simp [h]
  have hsplit : mscale cfg.task_coeff
      (otd ++ [List.replicate (data.discount.headD []).length 0]) =
      mscale cfg.task_coeff otd ++
        [vscale cfg.task_coeff (List.replicate (data.discount.headD []).length 0)] := by
    simp [mscale]
  have haddm : LossAcc.addMat
      (LossAcc.v (List.replicate (data.discount.headD []).length 0))
      (mscale cfg.task_coeff oloss) = LossAcc.m (mscale cfg.task_coeff oloss) := by
    simp only [LossAcc.addMat]
    congr 1
    have hrows : ∀ row ∈ mscale cfg.task_coeff oloss,
        vadd (List.replicate (data.discount.headD []).length 0) row = row :=
      fun row h => vadd_replicate_zero _ row
        (rowsLe_mscale cfg.task_coeff oloss _ hsh.2.2 row h)
    calc (mscale cfg.task_coeff oloss).map
          (fun row => vadd (List.replicate (data.discount.headD []).length 0) row)
        = (mscale cfg.task_coeff oloss).map id := List.map_congr_left hrows
      _ = mscale cfg.task_coeff oloss := List.map_id _
  rw [hpad, hsplit, List.dropLast_concat, haddm]
  simp

/-- On-task result of the witness batch (the orchestrator input of
`error_shortcircuit_witness`). -/
def ontaskW : Mat × Mat × Metrics :=
  (MtrlDynaUsfaLossFn.ontask_loss cfgW dataW opW tpW
    (make_episode_mask dataW false)).getD ([], [], [])

/-- Witness for claim C6 at the concrete two-step batch. -/
theorem error_shortcircuit_witness :
    cfgW.dyna_coeff ≤ 0 ∧ cfgW.model_coeff ≤ 0 ∧ 0 < cfgW.task_coeff
    ∧ 1 < dataW.discount.length
    ∧ MtrlDynaUsfaLossFn.error cfgW dataW opW tpW netsW 0 0 7 =
      some (mscale cfgW.task_coeff ontaskW.1,
        LossAcc.m (mscale cfgW.task_coeff ontaskW.2.1),
        ontaskW.2.2.map (fun kv => ("1.online." ++ kv.1, kv.2)) ++
          [("0.total_loss",
            (LossAcc.m (mscale cfgW.task_coeff ontaskW.2.1)).toTensor)]) := by
  refine ⟨by decide, by decide, by decide, by decide, ?_⟩
  exact error_shortcircuit cfgW netsW dataW opW tpW 0 0 7
    ontaskW.1 ontaskW.2.1 ontaskW.2.2 (by decide) (by decide) (by decide)
    (by decide) rfl rfl

/-- Claim C8: the orchestrator is reproducible — two calls with identical
trajectory data, online and target predictions, online and target
parameters, and pseudo-random key return identical results.  The embedding
is a pure function: all sampling randomness is derived by deterministically
splitting the supplied key (`split_key`, `jax_random_split`), and the input
batch, a value, is never mutated. -/
theorem error_reproducible (cfg : LossCfg) (networks : MbrlSfNetworks)
    (data data2 : TrajData) (op op2 tp tp2 : PredictionsTB)
    (params params2 target_params target_params2 : Params) (key key2 : Key)
    (hdata : data = data2) (hop : op = op2) (htp : tp = tp2)
    (hparams : params = params2) (htparams : target_params = target_params2)
    (hkey : key = key2) :
    MtrlDynaUsfaLossFn.error cfg data op tp networks params target_params key =
      MtrlDynaUsfaLossFn.error cfg data2 op2 tp2 networks params2
        target_params2 key2 := by
  subst hdata hop htp hparams htparams hkey
  rfl

/-- Witness for claim C8 at the concrete two-step batch. -/
theorem error_reproducible_witness :
    dataW = dataW
    ∧ MtrlDynaUsfaLossFn.error cfgW dataW opW tpW netsW 0 0 7 =
      MtrlDynaUsfaLossFn.error cfgW dataW opW tpW netsW 0 0 7 :=
  ⟨rfl, error_reproducible cfgW netsW dataW dataW opW opW tpW tpW 0 0 0 0 7 7
    rfl rfl rfl rfl rfl rfl⟩
